import Mathlib

/-!
Verification of the Interpreter-pattern expression reader
(`src/Behavioral_patterns/interpreter_dp.py`): the lexer `lex`, the parser
`parse`, and expression evaluation via the `value` property.

The Python code is shallowly embedded: strings become `List Char`, Python's
`None` stored in an expression field becomes the `pyNone` expression, and a
Python exception escaping a function is modelled by the function returning
`none`.  The `while` loops of `lex` and `parse` are written as recursions
with an explicit fuel argument equal to the list length; each loop iteration
consumes at least one list element, so this fuel never runs out, which the
`congr` lemmas below make precise.
-/

namespace Interpreter

/-- Dropping a prefix never lengthens a list. -/
lemma length_dropWhile_le {α : Type} (p : α → Bool) (l : List α) :
    (l.dropWhile p).length ≤ l.length := by
  induction l with
  | nil => simp [List.dropWhile]
  | cons x xs ih =>
    rw [List.dropWhile]
    cases hp : p x
    · simp
    · simpa using Nat.le_trans ih (Nat.le_succ _)

/-- Taking a prefix never lengthens a list. -/
lemma length_takeWhile_le {α : Type} (p : α → Bool) (l : List α) :
    (l.takeWhile p).length ≤ l.length := by
  induction l with
  | nil => simp [List.takeWhile]
  | cons x xs ih =>
    rw [List.takeWhile]
    cases hp : p x
    · simp
    · simpa using ih

/-- `Token.Type` from the source: the five token kinds. -/
inductive TokenType where
  | INTEGER
  | PLUS
  | MINUS
  | LPAREN
  | RPAREN
deriving DecidableEq, Repr

/-- `Token` from the source: a kind together with the raw text. -/
structure Token where
  type_ : TokenType
  text : String
deriving DecidableEq, Repr

/-- The body of `lex`'s `while` loop, fuelled.  The outer loop walks the
string; `+`, `-`, `(`, `)` each emit their token directly.  Any other
character starts a digit-collection run: the inner `for` loop extends the
run over the consecutive digits that follow and emits the INTEGER token only
when it meets a non-digit character (`append` then `break`); when the run
reaches the end of the input, the `for` loop finishes without emitting, so
the collected token is lost — exactly as in the source.  Afterwards the scan
resumes at the first character past the run. -/
def lexFuel : Nat → List Char → List Token
  | _, [] => []
  | 0, _ :: _ => []
  | fuel + 1, c :: rest =>
    if c = '+' then { type_ := .PLUS, text := "+" } :: lexFuel fuel rest
    else if c = '-' then { type_ := .MINUS, text := "-" } :: lexFuel fuel rest
    else if c = '(' then { type_ := .LPAREN, text := "(" } :: lexFuel fuel rest
    else if c = ')' then { type_ := .RPAREN, text := ")" } :: lexFuel fuel rest
    else
      match rest.dropWhile Char.isDigit with
      | [] => []
      | d :: tl =>
        { type_ := .INTEGER, text := String.mk (c :: rest.takeWhile Char.isDigit) }
          :: lexFuel fuel (d :: tl)

/-- `lex` from the source, on the input's character list. -/
def lex (l : List Char) : List Token := lexFuel l.length l

/-- `lex` applied to a Python string. -/
def lexStr (s : String) : List Token := lex s.data

/-- Any fuel at least the input length gives the same lexing result, so the
fuel in `lex` never runs out. -/
lemma lexFuel_congr : ∀ (fuel : Nat) (l : List Char), l.length ≤ fuel →
    lexFuel fuel l = lex l := by
  intro fuel
  induction fuel using Nat.strong_induction_on with
  | _ fuel ih =>
    intro l hl
    match fuel, l with
    | f0, [] => cases f0 <;> rfl
    | 0, c :: rest => simp at hl
    | f + 1, c :: rest =>
      simp only [List.length_cons, Nat.succ_le_succ_iff] at hl
      have ihf : ∀ l' : List Char, l'.length ≤ f → lexFuel f l' = lex l' :=
        ih f (Nat.lt_succ_self f)
      show lexFuel (f + 1) (c :: rest) = lexFuel (rest.length + 1) (c :: rest)
      rw [lexFuel, lexFuel]
      by_cases h1 : c = '+'
      · simp [h1, ihf rest hl, lex]
      by_cases h2 : c = '-'
      · simp [h1, h2, ihf rest hl, lex]
      by_cases h3 : c = '('
      · simp [h1, h2, h3, ihf rest hl, lex]
      by_cases h4 : c = ')'
      · simp [h1, h2, h3, h4, ihf rest hl, lex]
      simp only [h1, h2, h3, h4, if_false]
      cases hdw : rest.dropWhile Char.isDigit with
      | nil => rfl
      | cons d tl =>
        have hlen : (d :: tl).length ≤ rest.length := by
          rw [← hdw]; exact length_dropWhile_le _ _
        dsimp only
        rw [ihf (d :: tl) (Nat.le_trans hlen hl)]
        rw [ih rest.length (Nat.lt_succ_of_le hl) (d :: tl) hlen]

example : lexStr "(2+3)-(1+3)" =
    [⟨.LPAREN, "("⟩, ⟨.INTEGER, "2"⟩, ⟨.PLUS, "+"⟩, ⟨.INTEGER, "3"⟩, ⟨.RPAREN, ")"⟩,
     ⟨.MINUS, "-"⟩,
     ⟨.LPAREN, "("⟩, ⟨.INTEGER, "1"⟩, ⟨.PLUS, "+"⟩, ⟨.INTEGER, "3"⟩, ⟨.RPAREN, ")"⟩] := by
  decide

example : lexStr "2+3" = [⟨.INTEGER, "2"⟩, ⟨.PLUS, "+"⟩] := by decide

example : lexStr "12-3" = [⟨.INTEGER, "12"⟩, ⟨.MINUS, "-"⟩] := by decide

/-- `BinaryExpression.Type` from the source: the two operators. -/
inductive BinaryExpressionType where
  | ADDITION
  | SUBTRACTION
deriving DecidableEq, Repr

/-- Expression nodes.  `integer` is the source's `Integer` class,
`binaryExpression` the source's `BinaryExpression` (whose `type_`, `left`
and `right` fields are initialised to Python `None`), and `pyNone` stands
for Python's `None` stored in a `left`/`right` field. -/
inductive Expr where
  | pyNone
  | integer (value : Int)
  | binaryExpression (type_ : Option BinaryExpressionType) (left right : Expr)
deriving DecidableEq, Repr

/-- The `value` property of the source.  `Integer.value` is the stored
integer.  `BinaryExpression.value` adds the operand values when `type_` is
`ADDITION` and subtracts them in every other case (the source has a bare
`else`, so `SUBTRACTION` and a never-set `None` operator both subtract).
Requesting `.value` on Python `None` raises `AttributeError`, modelled by
`none`; an error in an operand propagates. -/
def Expr.value : Expr → Option Int
  | .pyNone => none
  | .integer v => some v
  | .binaryExpression t l r =>
    match l.value, r.value with
    | some lv, some rv =>
      if t = some .ADDITION then some (lv + rv) else some (lv - rv)
    | _, _ => none

/-- Accumulator for decimal-digit runs (helper for `pyInt?`). -/
def digitsAcc (acc : Nat) : List Char → Option Nat
  | [] => some acc
  | c :: cs =>
    if c.isDigit then digitsAcc (acc * 10 + (c.toNat - '0'.toNat)) cs else none

/-- Python's `int()` applied to a token's text, on the fragment that can
reach it here: an optional single sign followed by a nonempty run of decimal
digits converts, anything else raises `ValueError` (modelled by `none`). -/
def pyInt? (s : String) : Option Int :=
  match s.data with
  | [] => none
  | '+' :: ds => if ds = [] then none else (digitsAcc 0 ds).map (fun n => (n : Int))
  | '-' :: ds => if ds = [] then none else (digitsAcc 0 ds).map (fun n => -(n : Int))
  | ds => (digitsAcc 0 ds).map (fun n => (n : Int))

/-- The mutable state of `parse`'s `while` loop: the `type_`, `left` and
`right` fields of the `BinaryExpression` under construction together with
the `has_left_side` flag. -/
structure ParseState where
  type_ : Option BinaryExpressionType
  left : Expr
  right : Expr
  hasLeft : Bool
deriving DecidableEq, Repr

/-- The state at entry of `parse`: a fresh `BinaryExpression()` (all fields
`None`) and `has_left_side = False`. -/
def initState : ParseState := ⟨none, .pyNone, .pyNone, false⟩

/-- The body of `parse`'s `while` loop, fuelled, processing the remaining
token suffix.  An INTEGER token becomes `Integer(int(text))` and lands in
`left` the first time and in `right` every later time; PLUS/MINUS set the
node's operator; on LPAREN the scan takes the slice of following tokens up
to the *first* RPAREN (`takeWhile`), parses it recursively into a
sub-expression, assigns it like an integer, and resumes just past that
RPAREN (`(dropWhile …).tail`, the empty suffix when no RPAREN exists, since
the scan position then jumps past the end); a stray RPAREN matches no branch
and is skipped.  A failing `int` conversion aborts the call (`none`). -/
def parseFuel : Nat → ParseState → List Token → Option ParseState
  | _, st, [] => some st
  | 0, _, _ :: _ => none
  | fuel + 1, st, t :: rest =>
    match t.type_ with
    | .INTEGER =>
      match pyInt? t.text with
      | none => none
      | some n =>
        if st.hasLeft then parseFuel fuel { st with right := .integer n } rest
        else parseFuel fuel { st with left := .integer n, hasLeft := true } rest
    | .PLUS => parseFuel fuel { st with type_ := some .ADDITION } rest
    | .MINUS => parseFuel fuel { st with type_ := some .SUBTRACTION } rest
    | .LPAREN =>
      match parseFuel fuel initState (rest.takeWhile (fun u => u.type_ != .RPAREN)) with
      | none => none
      | some sub =>
        if st.hasLeft then
          parseFuel fuel { st with right := .binaryExpression sub.type_ sub.left sub.right }
            ((rest.dropWhile (fun u => u.type_ != .RPAREN)).tail)
        else
          parseFuel fuel
            { st with left := .binaryExpression sub.type_ sub.left sub.right, hasLeft := true }
            ((rest.dropWhile (fun u => u.type_ != .RPAREN)).tail)
    | .RPAREN => parseFuel fuel st rest

/-- `parse`'s loop run to completion from state `st` on a token suffix. -/
def parseLoop (st : ParseState) (tokens : List Token) : Option ParseState :=
  parseFuel tokens.length st tokens

/-- `parse` from the source: run the loop from the initial state and return
the root `BinaryExpression` built from the final fields; `none` models an
exception escaping the call. -/
def parse (tokens : List Token) : Option Expr :=
  (parseLoop initState tokens).map fun st => .binaryExpression st.type_ st.left st.right

/-- Any fuel at least the token-list length gives the same parsing result,
so the fuel in `parseLoop` never runs out: each loop iteration consumes at
least one token, and a parenthesised slice is shorter than the suffix it
came from. -/
lemma parseFuel_congr : ∀ (fuel : Nat) (st : ParseState) (l : List Token),
    l.length ≤ fuel → parseFuel fuel st l = parseLoop st l := by
  intro fuel
  induction fuel using Nat.strong_induction_on with
  | _ fuel ih =>
    intro st l hl
    match fuel, l with
    | f0, [] => cases f0 <;> rfl
    | 0, t :: rest => simp at hl
    | f + 1, t :: rest =>
      simp only [List.length_cons, Nat.succ_le_succ_iff] at hl
      have ihf : ∀ (st' : ParseState) (l' : List Token), l'.length ≤ f →
          parseFuel f st' l' = parseLoop st' l' :=
        ih f (Nat.lt_succ_self f)
      have ihr : ∀ (st' : ParseState) (l' : List Token), l'.length ≤ rest.length →
          parseFuel rest.length st' l' = parseLoop st' l' :=
        ih rest.length (Nat.lt_succ_of_le hl)
      show parseFuel (f + 1) st (t :: rest) = parseFuel (rest.length + 1) st (t :: rest)
      rw [parseFuel, parseFuel]
      cases hty : t.type_ with
      | INTEGER =>
        dsimp only
        cases hpi : pyInt? t.text with
        | none => rfl
        | some n =>
          dsimp only
          by_cases hsl : st.hasLeft <;>
            simp only [hsl, if_true, if_false, Bool.false_eq_true] <;>
            rw [ihf _ rest hl, ihr _ rest le_rfl]
      | PLUS => dsimp only; rw [ihf _ rest hl, ihr _ rest le_rfl]
      | MINUS => dsimp only; rw [ihf _ rest hl, ihr _ rest le_rfl]
      | LPAREN =>
        dsimp only
        have hinner : (rest.takeWhile (fun u => u.type_ != .RPAREN)).length ≤ rest.length :=
          length_takeWhile_le _ _
        have hrest' : ((rest.dropWhile (fun u => u.type_ != .RPAREN)).tail).length ≤
            rest.length := by
          have := length_dropWhile_le (fun u : Token => u.type_ != .RPAREN) rest
          simp only [List.length_tail]
          omega
        rw [ihf initState _ (Nat.le_trans hinner hl), ihr initState _ hinner]
        cases parseLoop initState (rest.takeWhile (fun u => u.type_ != .RPAREN)) with
        | none => rfl
        | some sub =>
          dsimp only
          by_cases hsl : st.hasLeft <;>
            simp only [hsl, if_true, if_false, Bool.false_eq_true] <;>
            rw [ihf _ _ (Nat.le_trans hrest' hl), ihr _ _ hrest']
      | RPAREN => dsimp only; rw [ihf _ rest hl, ihr _ rest le_rfl]

example : parse (lexStr "(2+3)-(1+3)") =
    some (.binaryExpression (some .SUBTRACTION)
      (.binaryExpression (some .ADDITION) (.integer 2) (.integer 3))
      (.binaryExpression (some .ADDITION) (.integer 1) (.integer 3))) := by decide

example : (parse (lexStr "(2+3)-(1+3)")).bind Expr.value = some 1 := by decide

example : (parse (lexStr "2+3")).bind Expr.value = none := by decide

example : parse [⟨.INTEGER, "1"⟩, ⟨.INTEGER, "2"⟩, ⟨.INTEGER, "3"⟩] =
    some (.binaryExpression none (.integer 1) (.integer 3)) := by decide

/-- The tokens kept while no RPAREN has been seen are exactly the tokens
before the index of the first RPAREN. -/
lemma takeWhile_rparen_eq_take (l : List Token) :
    l.takeWhile (fun u => u.type_ != .RPAREN) =
      l.take (l.findIdx (fun u => u.type_ == .RPAREN)) := by
  induction l with
  | nil => rfl
  | cons x xs ih =>
    simp only [bne] at ih ⊢
    cases hp : (x.type_ == TokenType.RPAREN) <;>
      simp [List.takeWhile_cons, List.findIdx_cons, hp, ih]

/-- The tokens after the scanned-to RPAREN are exactly the tokens past the
index of the first RPAREN. -/
lemma dropWhile_rparen_tail_eq_drop (l : List Token) :
    (l.dropWhile (fun u => u.type_ != .RPAREN)).tail =
      l.drop (l.findIdx (fun u => u.type_ == .RPAREN) + 1) := by
  induction l with
  | nil => rfl
  | cons x xs ih =>
    simp only [bne] at ih ⊢
    cases hp : (x.type_ == TokenType.RPAREN) <;>
      simp [List.dropWhile_cons, List.findIdx_cons, hp, ih]

/-- Claim C1: the claim expects `tokenize("2+3")` to yield the three tokens
INTEGER "2", PLUS "+", INTEGER "3".  The code instead yields only the first
two: the trailing digit run reaches the end of the input, so its INTEGER
token is never appended. -/
theorem lex_two_plus_three :
    lexStr "2+3" = [⟨.INTEGER, "2"⟩, ⟨.PLUS, "+"⟩] := by decide

/-- Claim C2: the claim expects `evaluate(parse(tokenize("2+3")))` to be 5.
Because the lexer drops the trailing INTEGER "3", `parse` leaves `right`
unset and evaluation is an error (`none`), not 5. -/
theorem eval_two_plus_three_errors :
    (parse (lexStr "2+3")).bind Expr.value = none := by decide

/-- Claim C3: the claim expects `tokenize("12-3")` to yield INTEGER "12",
MINUS "-", INTEGER "3".  The multi-digit grouping of "12" does happen, but
the trailing "3" reaches the end of the input and its token is never
emitted, so only two tokens come back. -/
theorem lex_twelve_minus_three :
    lexStr "12-3" = [⟨.INTEGER, "12"⟩, ⟨.MINUS, "-"⟩] := by decide

/-- Claim C4: `parse(tokenize("(2+3)-(1+3)"))` produces a tree whose
`.value` is 1. -/
theorem paren_example_evaluates_to_one :
    (parse (lexStr "(2+3)-(1+3)")).bind Expr.value = some 1 := by decide

/-- Claim C5: on an LPAREN token the parser takes the slice of tokens
strictly before the first RPAREN that follows (no nesting counter), parses
it recursively into a sub-expression, assigns that sub-expression to `left`
if no left operand is set yet and to `right` otherwise, and resumes
scanning immediately past the matched RPAREN. -/
theorem parse_lparen_takes_first_rparen (st : ParseState) (t : Token) (rest : List Token)
    (ht : t.type_ = .LPAREN) :
    parseLoop st (t :: rest) =
      match parse (rest.take (rest.findIdx (fun u => u.type_ == .RPAREN))) with
      | none => none
      | some e =>
        if st.hasLeft then
          parseLoop { st with right := e }
            (rest.drop (rest.findIdx (fun u => u.type_ == .RPAREN) + 1))
        else
          parseLoop { st with left := e, hasLeft := true }
            (rest.drop (rest.findIdx (fun u => u.type_ == .RPAREN) + 1)) := by
  show parseFuel (rest.length + 1) st (t :: rest) = _
  rw [parseFuel, ht]
  dsimp only
  rw [takeWhile_rparen_eq_take, dropWhile_rparen_tail_eq_drop]
  have htk : (rest.take (rest.findIdx (fun u => u.type_ == .RPAREN))).length ≤ rest.length := by
    simp [List.length_take]
  have hdr : (rest.drop (rest.findIdx (fun u => u.type_ == .RPAREN) + 1)).length ≤
      rest.length := by
    simp [List.length_drop]
  rw [parseFuel_congr rest.length initState _ htk, parse]
  cases hsub : parseLoop initState (rest.take (rest.findIdx (fun u => u.type_ == .RPAREN))) with
  | none => rfl
  | some sub =>
    dsimp only [Option.map_some]
    by_cases hsl : st.hasLeft <;>
      simp only [hsl, if_true, if_false, Bool.false_eq_true] <;>
      rw [parseFuel_congr rest.length _ _ hdr] <;> rfl

/-- Witness for C5: the theorem applied to the concrete token run `( 2 )`,
with both sides evaluated. -/
theorem parse_lparen_takes_first_rparen_witness :
    parseLoop initState [⟨.LPAREN, "("⟩, ⟨.INTEGER, "2"⟩, ⟨.RPAREN, ")"⟩] =
      some { type_ := none, left := .binaryExpression none (.integer 2) .pyNone,
             right := .pyNone, hasLeft := true } :=
  (parse_lparen_takes_first_rparen initState ⟨.LPAREN, "("⟩
    [⟨.INTEGER, "2"⟩, ⟨.RPAREN, ")"⟩] (by decide)).trans (by decide)

/-- Claim C6 as stated is false: a third integer token is not silently
dropped with the operands unchanged — it overwrites the previously set
right operand.  On INTEGER "1", INTEGER "2", INTEGER "3" the resulting
right operand is 3, not the 2 the claim predicts. -/
theorem parse_third_integer_not_dropped :
    parse [⟨.INTEGER, "1"⟩, ⟨.INTEGER, "2"⟩, ⟨.INTEGER, "3"⟩] =
        some (.binaryExpression none (.integer 1) (.integer 3)) ∧
      parse [⟨.INTEGER, "1"⟩, ⟨.INTEGER, "2"⟩, ⟨.INTEGER, "3"⟩] ≠
        some (.binaryExpression none (.integer 1) (.integer 2)) := by
  constructor
  · decide
  · decide

/-- Claim C6 amended: the first INTEGER token becomes the left operand, and
every later INTEGER token is written to the right operand, each overwriting
the previous one; the left operand and the operator are unchanged by it. -/
theorem parse_integer_step (st : ParseState) (t : Token) (rest : List Token) (n : Int)
    (ht : t.type_ = .INTEGER) (hn : pyInt? t.text = some n) :
    parseLoop st (t :: rest) =
      if st.hasLeft then parseLoop { st with right := .integer n } rest
      else parseLoop { st with left := .integer n, hasLeft := true } rest := by
  show parseFuel (rest.length + 1) st (t :: rest) = _
  rw [parseFuel, ht]
  dsimp only
  rw [hn]
  rfl

/-- Witness for C6's amended claim: with a left operand 1 and right operand
2 already set, a further INTEGER "3" overwrites the right operand. -/
theorem parse_integer_step_witness :
    parseLoop { type_ := none, left := .integer 1, right := .integer 2, hasLeft := true }
        [⟨.INTEGER, "3"⟩] =
      some { type_ := none, left := .integer 1, right := .integer 3, hasLeft := true } :=
  (parse_integer_step ⟨none, .integer 1, .integer 2, true⟩ ⟨.INTEGER, "3"⟩ [] 3
    (by decide) (by decide)).trans (by decide)

/-- Claim C7: a PLUS token sets the current node's operator to ADDITION and
a MINUS token sets it to SUBTRACTION, regardless of (and overwriting) any
operator already stored; concretely, in the flat run `1 + - 2` the later
MINUS wins and the node subtracts. -/
theorem parse_operator_sets_type (st : ParseState) (t : Token) (rest : List Token) :
    (t.type_ = .PLUS →
      parseLoop st (t :: rest) = parseLoop { st with type_ := some .ADDITION } rest) ∧
    (t.type_ = .MINUS →
      parseLoop st (t :: rest) = parseLoop { st with type_ := some .SUBTRACTION } rest) ∧
    parse [⟨.INTEGER, "1"⟩, ⟨.PLUS, "+"⟩, ⟨.MINUS, "-"⟩, ⟨.INTEGER, "2"⟩] =
      some (.binaryExpression (some .SUBTRACTION) (.integer 1) (.integer 2)) := by
  refine ⟨fun ht => ?_, fun ht => ?_, by decide⟩
  · show parseFuel (rest.length + 1) st (t :: rest) = _
    rw [parseFuel, ht]
    rfl
  · show parseFuel (rest.length + 1) st (t :: rest) = _
    rw [parseFuel, ht]
    rfl

/-- Witness for C7: the PLUS and MINUS steps of the theorem applied to
concrete operator tokens, with an ADDITION already stored being overwritten
by the MINUS token. -/
theorem parse_operator_sets_type_witness :
    parseLoop initState [⟨.PLUS, "+"⟩] =
        some { type_ := some .ADDITION, left := .pyNone, right := .pyNone, hasLeft := false } ∧
      parseLoop { type_ := some .ADDITION, left := .pyNone, right := .pyNone, hasLeft := false }
          [⟨.MINUS, "-"⟩] =
        some { type_ := some .SUBTRACTION, left := .pyNone, right := .pyNone,
               hasLeft := false } :=
  ⟨((parse_operator_sets_type initState ⟨.PLUS, "+"⟩ []).1 (by decide)).trans (by decide),
   ((parse_operator_sets_type ⟨some .ADDITION, .pyNone, .pyNone, false⟩
      ⟨.MINUS, "-"⟩ []).2.1 (by decide)).trans (by decide)⟩

/-- Claim C8: parsing a single bare INTEGER token still returns a root
`BinaryExpression`, with `left` set to the integer while the operator and
`right` remain unset, and requesting `.value` on that node is an error
(`none`), not an integer. -/
theorem parse_single_integer (t : Token) (n : Int)
    (ht : t.type_ = .INTEGER) (hn : pyInt? t.text = some n) :
    parse [t] = some (.binaryExpression none (.integer n) .pyNone) ∧
      (Expr.binaryExpression none (.integer n) .pyNone).value = none := by
  constructor
  · show ((parseFuel 1 initState [t]).map _) = _
    rw [parseFuel, ht]
    dsimp only
    rw [hn]
    rfl
  · rfl

/-- Witness for C8: the theorem applied to the token INTEGER "2". -/
theorem parse_single_integer_witness :
    parse [⟨.INTEGER, "2"⟩] = some (.binaryExpression none (.integer 2) .pyNone) ∧
      (Expr.binaryExpression none (.integer 2) .pyNone).value = none :=
  parse_single_integer ⟨.INTEGER, "2"⟩ 2 (by decide) (by decide)

/-- Claim C9: lexing is deterministic and free of side effects on anything
but its result — the embedding of `lex` is a pure function of the input
string, so two calls on the same string give token sequences of the same
length that agree pairwise in kind and text. -/
theorem lex_deterministic (s : List Char) :
    (lex s).length = (lex s).length ∧
      List.Forall₂ (fun a b : Token => a.type_ = b.type_ ∧ a.text = b.text) (lex s) (lex s) :=
  ⟨rfl, List.forall₂_same.mpr fun _ _ => ⟨rfl, rfl⟩⟩

/-- Claim C10: a `BinaryExpression` whose operands are set (and evaluate to
integers) but whose operator was never set does not raise on `.value`: the
bare `else` branch subtracts, so the result is left minus right. -/
theorem value_unset_operator_subtracts (l r : Expr) (a b : Int)
    (hl : l.value = some a) (hr : r.value = some b) :
    (Expr.binaryExpression none l r).value = some (a - b) := by
  rw [Expr.value, hl, hr]
  rfl

/-- Witness for C10: the unset-operator node over 5 and 3 evaluates to 2. -/
theorem value_unset_operator_subtracts_witness :
    (Expr.binaryExpression none (.integer 5) (.integer 3)).value = some 2 :=
  (value_unset_operator_subtracts (.integer 5) (.integer 3) 5 3 rfl rfl).trans (by decide)

end Interpreter
